import Mathlib

/-!
Verification development for the turnkey-netinfo library (src/netinfo/__init__.py).

The Python module is embedded shallowly at the level of character lists:

* strings are modelled as `List Char`, bytes as `Fin 256`;
* the ioctl layer is modelled as an environment `IoctlEnv : Nat → Except Unit (List Byte)`
  mapping a request code to either an `OSError` (`.error ()`) or a response buffer
  (on Linux, `fcntl.ioctl` with a `bytes` argument returns a buffer of the same
  length as the 32-byte request buffer `ifreq`);
* the external `route -n` invocation is modelled as
  `Except CalledProcessError (List Char)` (`subprocess.run(..., check=True)` raises
  `CalledProcessError` on a nonzero exit status, which is the only exception the
  source catches);
* Python exceptions become explicit `Except` results over the `PyErr` type;
* `struct.unpack("H", ...)` is decoded little-endian, matching the native byte
  order of the library's target platforms.
-/

deriving instance DecidableEq for Except

namespace Netinfo

/-- Byte of a Python `bytes` object. -/
abbrev Byte := Fin 256

/-- Characters matched by the regex class `\s` (and stripped by `str.strip()`),
restricted to ASCII, which is all that interface tables contain. -/
def pyIsSpace (c : Char) : Bool :=
  c = ' ' || c = '\t' || c = '\n' || c = '\r' || c = '\x0b' || c = '\x0c'

/-- Line-boundary characters recognised by Python `str.splitlines()`. -/
def isLineBreak (c : Char) : Bool :=
  c = '\n' || c = '\r' || c = '\x0b' || c = '\x0c' || c = '\x1c' || c = '\x1d' ||
  c = '\x1e' || c = '\x85' || c = '\u2028' || c = '\u2029'

def SIOCGIFFLAGS : Nat := 0x8913

def SIOCGIFADDR : Nat := 0x8915

def SIOCGIFNETMASK : Nat := 0x891B

def SIOCGIFBRDADDR : Nat := 0x8919

def IFF_UP : Nat := 0x1

def IFF_BROADCAST : Nat := 0x2

def IFF_DEBUG : Nat := 0x4

def IFF_LOOPBACK : Nat := 0x8

def IFF_POINTOPOINT : Nat := 0x10

def IFF_NOTRAILERS : Nat := 0x20

def IFF_RUNNING : Nat := 0x40

def IFF_NOARP : Nat := 0x80

def IFF_PROMISC : Nat := 0x100

def IFF_ALLMULTI : Nat := 0x200

def IFF_MASTER : Nat := 0x400

def IFF_SLAVE : Nat := 0x800

def IFF_MULTICAST : Nat := 0x1000

def IFF_PORTSEL : Nat := 0x2000

def IFF_AUTOMEDIA : Nat := 0x4000

def IFF_DYNAMIC : Nat := 0x8000

def IFF_LOWER_UP : Nat := 0x10000

def IFF_DORMANT : Nat := 0x20000

/-- Model of `subprocess.CalledProcessError` (raised by `check=True`). -/
structure CalledProcessError where
  returncode : Int
  deriving DecidableEq

/-- Argument of a raised `NetInfoError`: either a message string, as in
`NetInfoError("No default route found!")`, or a wrapped exception, as in
`NetInfoError(e)`. -/
inductive ErrArg where
  | ofStr (s : List Char)
  | ofExc (e : CalledProcessError)
  deriving DecidableEq

/-- The exceptions the embedded code can raise. -/
inductive PyErr where
  | netInfoError (arg : ErrArg)
  | attributeError (msg : List Char)
  | structError
  | oserror
  deriving DecidableEq

/-- Outcome of the plain ioctl call in `_get_ioctl_flag` before decoding:
the call itself may raise `OSError`, and `struct.unpack` may raise
`struct.error` on a response shorter than 18 bytes. -/
inductive FlagErr where
  | oserror
  | structError
  deriving DecidableEq

/-- The ioctl layer: request code to `OSError`-or-response-buffer. -/
abbrev IoctlEnv := Nat → Except Unit (List Byte)

/-- Python `str.split(sep)` for a single-character separator: splits at every
occurrence, producing one more part than there are separators. -/
def pySplit (sep : Char) : List Char → List (List Char)
  | [] => [[]]
  | c :: rest =>
    if c = sep then [] :: pySplit sep rest
    else
      match pySplit sep rest with
      | p :: ps => (c :: p) :: ps
      | [] => [[c]]

/-- Python `str.strip()` with no argument (ASCII whitespace). -/
def pyStrip (s : List Char) : List Char :=
  ((s.dropWhile pyIsSpace).reverse.dropWhile pyIsSpace).reverse

/-- Iterating a text file yields its lines, each keeping its trailing newline
(`for line in fob` over the `/proc/net/dev` contents). -/
def fileLinesAux (cur : List Char) : List Char → List (List Char)
  | [] => if cur = [] then [] else [cur.reverse]
  | c :: rest =>
    if c = '\n' then ('\n' :: cur).reverse :: fileLinesAux [] rest
    else fileLinesAux (c :: cur) rest

def fileLines (s : List Char) : List (List Char) :=
  fileLinesAux [] s

/-- The body of the `get_ifnames` loop for one line: the two-variable
unpacking `ifname, junk = line.strip().split(":")` succeeds exactly when the
split yields two parts, and a `ValueError` from any other shape is
swallowed, skipping the line. -/
def ifnameOfLine (line : List Char) : Option (List Char) :=
  match pySplit ':' (pyStrip line) with
  | [ifname, _junk] => some ifname
  | _ => none

/-- `get_ifnames`, parameterised by the text of `/proc/net/dev`. -/
def get_ifnames (dev : List Char) : List (List Char) :=
  (fileLines dev).filterMap ifnameOfLine

/-- `InterfaceInfo.FLAGS`: insertion-ordered mapping from flag names to the
`IFF_*` values pulled from the module globals. -/
def FLAGS : List (List Char × Nat) :=
  [("up".data, IFF_UP),
   ("broadcast".data, IFF_BROADCAST),
   ("debug".data, IFF_DEBUG),
   ("loopback".data, IFF_LOOPBACK),
   ("pointopoint".data, IFF_POINTOPOINT),
   ("notrailers".data, IFF_NOTRAILERS),
   ("running".data, IFF_RUNNING),
   ("noarp".data, IFF_NOARP),
   ("promisc".data, IFF_PROMISC),
   ("allmulti".data, IFF_ALLMULTI),
   ("master".data, IFF_MASTER),
   ("slave".data, IFF_SLAVE),
   ("multicast".data, IFF_MULTICAST),
   ("portsel".data, IFF_PORTSEL),
   ("automedia".data, IFF_AUTOMEDIA),
   ("dynamic".data, IFF_DYNAMIC),
   ("lower_up".data, IFF_LOWER_UP),
   ("dormant".data, IFF_DORMANT)]

/-- Dictionary lookup `self.FLAGS[attrname]` guarded by `attrname in self.FLAGS`. -/
def lookupFlag (n : List Char) : List (List Char × Nat) → Option Nat
  | [] => none
  | (k, v) :: rest => if n = k then some v else lookupFlag n rest

/-- `struct.unpack("H", result[16:18])[0]`: the unsigned 16-bit flag word at
byte offset 16 of the response, little-endian; `none` models the
`struct.error` raised when fewer than two bytes are available. -/
def flagsWord (result : List Byte) : Option Nat :=
  match result.drop 16 with
  | b0 :: b1 :: _ => some (b0.val + 256 * b1.val)
  | _ => none

/-- `InterfaceInfo._get_ioctl_flag`: always issues the `SIOCGIFFLAGS` request
(the `magic` argument is used only as the bit mask) and tests
`(flags & magic) != 0`. -/
def _get_ioctl_flag (ioctl : IoctlEnv) (magic : Nat) : Except FlagErr Bool :=
  match ioctl SIOCGIFFLAGS with
  | .error _ => .error .oserror
  | .ok result =>
    match flagsWord result with
    | some flags => .ok (decide (flags &&& magic ≠ 0))
    | none => .error .structError

/-- `socket.inet_ntoa` on a 4-byte packed address: dotted decimal. -/
def inet_ntoa (b0 b1 b2 b3 : Byte) : List Char :=
  (Nat.repr b0.val).data ++ '.' :: (Nat.repr b1.val).data ++
  '.' :: (Nat.repr b2.val).data ++ '.' :: (Nat.repr b3.val).data

/-- `InterfaceInfo._get_ioctl_addr`: an `OSError` from the ioctl is swallowed
into `None`; on success `inet_ntoa(result[20:24])` decodes the address (a
response shorter than 24 bytes would make `inet_ntoa` itself raise, outside
the `try` block). -/
def _get_ioctl_addr (ioctl : IoctlEnv) (magic : Nat) :
    Except PyErr (Option (List Char)) :=
  match ioctl magic with
  | .error _ => .ok none
  | .ok result =>
    match result.drop 20 with
    | b0 :: b1 :: b2 :: b3 :: _ => .ok (some (inet_ntoa b0 b1 b2 b3))
    | _ => .error .oserror

/-- The `address` property. -/
def address (ioctl : IoctlEnv) : Except PyErr (Option (List Char)) :=
  _get_ioctl_addr ioctl SIOCGIFADDR

/-- The `addr` alias of `address`. -/
def addr (ioctl : IoctlEnv) : Except PyErr (Option (List Char)) :=
  address ioctl

/-- The `netmask` property. -/
def netmask (ioctl : IoctlEnv) : Except PyErr (Option (List Char)) :=
  _get_ioctl_addr ioctl SIOCGIFNETMASK

/-- `InterfaceInfo.__getattr__`: names starting with `"is_"` whose suffix is a
registered flag become flag queries, with an `OSError` from the ioctl
re-raised as `NetInfoError(f"could not get {attrname} flag for {self.ifname}")`;
every other name raises `AttributeError(f"no such attribute: {attrname}")`,
where `attrname` has already been stripped of its `"is_"` prefix when it had
one. -/
def InterfaceInfo_getattr (ifname : List Char) (ioctl : IoctlEnv)
    (attrname : List Char) : Except PyErr Bool :=
  if "is_".data.isPrefixOf attrname then
    let a := attrname.drop 3
    match lookupFlag a FLAGS with
    | some magic =>
      match _get_ioctl_flag ioctl magic with
      | .ok b => .ok b
      | .error .oserror =>
        .error (.netInfoError (.ofStr
          ("could not get ".data ++ a ++ " flag for ".data ++ ifname)))
      | .error .structError => .error .structError
    | none => .error (.attributeError ("no such attribute: ".data ++ a))
  else
    .error (.attributeError ("no such attribute: ".data ++ attrname))

/-- `InterfaceInfo.__init__`, parameterised by the `/proc/net/dev` text the
enumerator reads: raises `NetInfoError(f"no such interface '{ifname}'")` when
the name is absent from `get_ifnames()`, and otherwise produces the validated
handle (represented by its bound interface name). -/
def InterfaceInfo_init (ifname : List Char) (dev : List Char) :
    Except PyErr (List Char) :=
  if ifname ∈ get_ifnames dev then .ok ifname
  else
    .error (.netInfoError (.ofStr
      ("no such interface \x27".data ++ ifname ++ "\x27".data)))

/-- Tail of the gateway regex, `\s+<ifname>` : at least one `\s` character
followed by an occurrence of the interface name (the pattern is not anchored
at the end of the line). -/
def wsLit (ifn : List Char) : List Char → Bool
  | [] => false
  | c :: rest => pyIsSpace c && (ifn.isPrefixOf rest || wsLit ifn rest)

/-- `(.*)\s+<ifname>` : any run of non-newline characters, then `wsLit`.
Greediness of `(.*)` does not affect this boolean. -/
def dotStarWsLit (ifn : List Char) : List Char → Bool
  | [] => false
  | c :: rest => wsLit ifn (c :: rest) || (c != '\n' && dotStarWsLit ifn rest)

/-- `\s+(.*)\s+<ifname>` : at least one `\s` character, then `dotStarWsLit`. -/
def wsThenDotStarWsLit (ifn : List Char) : List Char → Bool
  | [] => false
  | c :: rest =>
    pyIsSpace c && (dotStarWsLit ifn rest || wsThenDotStarWsLit ifn rest)

/-- The lazy group `(.*?)` of the gateway regex: the shortest run of
non-newline characters after which `\s+(.*)\s+<ifname>` still matches, which
is exactly what `m.group(1)` captures. -/
def lazyG1 (ifn : List Char) : List Char → Option (List Char)
  | [] => if wsThenDotStarWsLit ifn [] then some [] else none
  | c :: rest =>
    if wsThenDotStarWsLit ifn (c :: rest) then some []
    else if c = '\n' then none
    else (lazyG1 ifn rest).map (fun g => c :: g)

/-- The first `\s+` of the gateway regex after its mandatory first character:
being greedy, it prefers to consume further whitespace before the lazy group
starts, falling back one character at a time. -/
def greedyWsThenG1 (ifn : List Char) : List Char → Option (List Char)
  | [] => none
  | c :: rest =>
    if pyIsSpace c then
      match greedyWsThenG1 ifn rest with
      | some g => some g
      | none => lazyG1 ifn (c :: rest)
    else lazyG1 ifn (c :: rest)

/-- Entry into `\s+(.*?)\s+(.*)\s+<ifname>` : the first whitespace character
is mandatory, then `greedyWsThenG1`. -/
def afterDest (ifn : List Char) : List Char → Option (List Char)
  | [] => none
  | c :: rest => if pyIsSpace c then greedyWsThenG1 ifn rest else none

/-- The head `^0.0.0.0` of the gateway regex: anchored at the start of the
line, with each unescaped `.` matching any character except a newline. -/
def matchDest : List Char → Option (List Char)
  | c0 :: c1 :: c2 :: c3 :: c4 :: c5 :: c6 :: rest =>
    if c0 = '0' ∧ c1 ≠ '\n' ∧ c2 = '0' ∧ c3 ≠ '\n' ∧ c4 = '0' ∧ c5 ≠ '\n' ∧
       c6 = '0'
    then some rest else none
  | _ => none

/-- `re.search(rf"^0.0.0.0\s+(.*?)\s+(.*)\s+{ifname}", line)` for a line
without line breaks, returning `m.group(1)` on success.  `^` restricts the
search to position 0, and the interface name is interpolated literally (its
characters carry no regex metacharacters in any claim). -/
def matchLine (ifn line : List Char) : Option (List Char) :=
  match matchDest line with
  | some rest => afterDest ifn rest
  | none => none

/-- Python `str.splitlines()`, accumulator form: a `"\r\n"` pair is one
boundary, and a boundary ending the string produces no trailing empty line. -/
def splitLinesAux (cur : List Char) : List Char → List (List Char)
  | [] => [cur.reverse]
  | '\r' :: '\n' :: rest =>
    cur.reverse :: (if rest = [] then [] else splitLinesAux [] rest)
  | c :: rest =>
    if isLineBreak c then
      cur.reverse :: (if rest = [] then [] else splitLinesAux [] rest)
    else splitLinesAux (c :: cur) rest

/-- Python `str.splitlines()`. -/
def pySplitLines (s : List Char) : List (List Char) :=
  match s with
  | [] => []
  | _ => splitLinesAux [] s

/-- The first line on which a row matcher fires, with its extracted value:
the `for line in route_n.splitlines()` loop returning inside its body. -/
def firstRowHit (f : List Char → Option (List Char)) :
    List (List Char) → Option (List Char)
  | [] => none
  | l :: ls =>
    match f l with
    | some g => some g
    | none => firstRowHit f ls

/-- `InterfaceInfo.get_gateway(errors)`, parameterised by the outcome of
`subprocess.run(["route", "-n"], ..., check=True)`: a `CalledProcessError` is
re-raised as `NetInfoError(e)` when `errors` is true and swallowed into
`None` otherwise; on success the first line matching the gateway regex yields
`m.group(1)`, and if no line matches, `errors` selects between
`NetInfoError("No default route found!")` and `None`. -/
def get_gateway (ifname : List Char)
    (route_n : Except CalledProcessError (List Char)) (errors : Bool) :
    Except PyErr (Option (List Char)) :=
  match route_n with
  | .error e =>
    if errors then .error (.netInfoError (.ofExc e)) else .ok none
  | .ok out =>
    match firstRowHit (matchLine ifname) (pySplitLines out) with
    | some g => .ok (some g)
    | none =>
      if errors then .error (.netInfoError (.ofStr "No default route found!".data))
      else .ok none

/-- The `gateway` property, `get_gateway(errors=False)`. -/
def gateway (ifname : List Char)
    (route_n : Except CalledProcessError (List Char)) :
    Except PyErr (Option (List Char)) :=
  get_gateway ifname route_n false

/-- Python `str.split()` with no argument: fields separated by runs of
whitespace, with no empty fields.  Used only by the claim-side route-row
reading below. -/
def pySplitWsAux (cur : List Char) : List Char → List (List Char)
  | [] => if cur = [] then [] else [cur.reverse]
  | c :: rest =>
    if pyIsSpace c then
      if cur = [] then pySplitWsAux [] rest
      else cur.reverse :: pySplitWsAux [] rest
    else pySplitWsAux (c :: cur) rest

def pySplitWs (s : List Char) : List (List Char) :=
  pySplitWsAux [] s

/-- Reading of one route row exactly as the claim words it: the row matches
when its first whitespace-separated column is literally `0.0.0.0` and its
trailing column equals the interface name, and the matched value is the
second column. -/
def gateway_claim_row (ifn line : List Char) : Option (List Char) :=
  let cols := pySplitWs line
  if cols.head? = some "0.0.0.0".data ∧ cols.getLast? = some ifn then cols[1]?
  else none

/-- The gateway lookup exactly as the claim words it: the second column of
the first row matched by `gateway_claim_row`, and a value from no other
row. -/
def gateway_claim (ifn dump : List Char) : Option (List Char) :=
  firstRowHit (gateway_claim_row ifn) (pySplitLines dump)

/-- The enumerator exactly as the claim words it: each line is split on its
first colon, and only lines with no colon at all are skipped. -/
def get_ifnames_claim (dev : List Char) : List (List Char) :=
  (fileLines dev).filterMap fun line =>
    let s := pyStrip line
    if ':' ∈ s then some (s.takeWhile (fun c => c ≠ ':')) else none

/-!
### Helper lemmas
-/

theorem isPrefixOf_append_self (l t : List Char) :
    l.isPrefixOf (l ++ t) = true := by
  rw [List.isPrefixOf_iff_prefix]
  exact List.prefix_append _ _

theorem lookupFlag_self : ∀ p ∈ FLAGS, lookupFlag p.1 FLAGS = some p.2 := by
  decide

theorem lookupFlag_none_of_not_mem (n : List Char) (l : List (List Char × Nat))
    (h : ∀ kv ∈ l, n ≠ kv.1) : lookupFlag n l = none := by
  induction l with
  | nil => rfl
  | cons kv rest ih =>
    obtain ⟨k, v⟩ := kv
    simp only [lookupFlag]
    rw [if_neg (h (k, v) (List.mem_cons_self _ _))]
    exact ih fun kv hm => h kv (List.mem_cons_of_mem _ hm)

/-- How `__getattr__` behaves on `is_<name>` for a registered flag `name`:
it reduces to the flag query for the registered bit, with an `OSError`
wrapped into a `NetInfoError` naming the flag and the interface. -/
theorem getattr_flag_mem (ifname : List Char) (ioctl : IoctlEnv)
    (name : List Char) (bit : Nat) (hm : (name, bit) ∈ FLAGS) :
    InterfaceInfo_getattr ifname ioctl ("is_".data ++ name) =
      match _get_ioctl_flag ioctl bit with
      | .ok b => .ok b
      | .error .oserror =>
        .error (.netInfoError (.ofStr
          ("could not get ".data ++ name ++ " flag for ".data ++ ifname)))
      | .error .structError => .error .structError := by
  have hl : lookupFlag name FLAGS = some bit := lookupFlag_self (name, bit) hm
  have hp : (['i', 's', '_'] : List Char).isPrefixOf (['i', 's', '_'] ++ name) =
      true := isPrefixOf_append_self _ _
  have hd : ((['i', 's', '_'] : List Char) ++ name).drop 3 = name := rfl
  simp [InterfaceInfo_getattr, hp, hd, hl]

/-!
### C3: construction-time validation against the enumerator
-/

/-- C3: constructing `InterfaceInfo(ifname)` succeeds exactly when `ifname`
is in the enumerator's output for the current device table, and raises
`NetInfoError(f"no such interface '{ifname}'")` exactly when it is not. -/
theorem init_no_such_interface (ifname dev : List Char) :
    (InterfaceInfo_init ifname dev = .ok ifname ↔ ifname ∈ get_ifnames dev) ∧
    (InterfaceInfo_init ifname dev =
        .error (.netInfoError (.ofStr
          ("no such interface \x27".data ++ ifname ++ "\x27".data))) ↔
      ifname ∉ get_ifnames dev) := by
  by_cases h : ifname ∈ get_ifnames dev <;>
    simp [InterfaceInfo_init, h]

/-!
### C6: address and netmask swallow OS-level failures
-/

/-- C6: whenever the underlying ioctl fails at the OS level, the `address`
and `netmask` properties return `None` rather than surfacing an error. -/
theorem addr_failure_swallowed (ioctl : IoctlEnv)
    (ha : ioctl SIOCGIFADDR = .error ())
    (hn : ioctl SIOCGIFNETMASK = .error ()) :
    address ioctl = .ok none ∧ netmask ioctl = .ok none := by
  simp [address, netmask, _get_ioctl_addr, ha, hn]

theorem addr_failure_swallowed_witness :
    address (fun _ => .error ()) = .ok none ∧
    netmask (fun _ => .error ()) = .ok none :=
  addr_failure_swallowed (fun _ => .error ()) rfl rfl

/-!
### C7: flag-query failures are surfaced, naming the flag and the interface
-/

/-- C7: for a registered flag name, an OS-level failure of the flags ioctl is
surfaced as `NetInfoError(f"could not get {name} flag for {ifname}")` — an
error value carrying both the flag name and the interface name — and is in
particular never swallowed into an `.ok` result. -/
theorem flag_failure_surfaced (ifname : List Char) (ioctl : IoctlEnv)
    (name : List Char) (bit : Nat) (hm : (name, bit) ∈ FLAGS)
    (hio : ioctl SIOCGIFFLAGS = .error ()) :
    InterfaceInfo_getattr ifname ioctl ("is_".data ++ name) =
      .error (.netInfoError (.ofStr
        ("could not get ".data ++ name ++ " flag for ".data ++ ifname))) := by
  rw [getattr_flag_mem ifname ioctl name bit hm]
  unfold _get_ioctl_flag
  rw [hio]

theorem flag_failure_surfaced_witness :
    InterfaceInfo_getattr "eth0".data (fun _ => .error ())
        ("is_".data ++ "up".data) =
      .error (.netInfoError (.ofStr
        ("could not get ".data ++ "up".data ++ " flag for ".data ++
          "eth0".data))) :=
  flag_failure_surfaced "eth0".data (fun _ => .error ()) "up".data IFF_UP
    (by decide) rfl

/-!
### C9: no broadcast-address query is exposed
-/

/-- C9 (code bug): although the request code `SIOCGIFBRDADDR` is defined, no
operation of the query engine issues it; the only dynamic accessor route,
`__getattr__`, raises `AttributeError` on the name `broadcast` for every
handle and every ioctl environment. -/
theorem broadcast_not_exposed (ifname : List Char) (ioctl : IoctlEnv) :
    SIOCGIFBRDADDR = 0x8919 ∧
    InterfaceInfo_getattr ifname ioctl "broadcast".data =
      .error (.attributeError ("no such attribute: ".data ++
        "broadcast".data)) :=
  ⟨rfl, rfl⟩

/-!
### C2, C10, C4: flag-word decoding and attribute dispatch
-/

theorem flagsWord_lt (resp : List Byte) (w : Nat)
    (h : flagsWord resp = some w) : w < 65536 := by
  unfold flagsWord at h
  cases hd : resp.drop 16 with
  | nil => rw [hd] at h; simp at h
  | cons b0 t =>
    cases t with
    | nil => rw [hd] at h; simp at h
    | cons b1 t2 =>
      rw [hd] at h
      simp only [Option.some.injEq] at h
      have hb0 := b0.isLt
      have hb1 := b1.isLt
      omega

/-- C2: on a flags response decoding to the word `0x48` (exactly the
`loopback` and `running` bits), every registered flag query `is_<name>`
returns true exactly for `loopback` and `running`; on a response decoding to
`0x1`, exactly for `up`. -/
theorem flag_word_decoding (ifname : List Char) (io1 io2 : IoctlEnv)
    (r1 r2 : List Byte)
    (h1 : io1 SIOCGIFFLAGS = .ok r1) (w1 : flagsWord r1 = some 0x48)
    (h2 : io2 SIOCGIFFLAGS = .ok r2) (w2 : flagsWord r2 = some 0x1) :
    ∀ name bit, (name, bit) ∈ FLAGS →
      InterfaceInfo_getattr ifname io1 ("is_".data ++ name) =
        .ok (decide (name = "loopback".data ∨ name = "running".data)) ∧
      InterfaceInfo_getattr ifname io2 ("is_".data ++ name) =
        .ok (decide (name = "up".data)) := by
  have key : ∀ p ∈ FLAGS,
      (decide ((0x48 : Nat) &&& p.2 ≠ 0) =
        decide (p.1 = "loopback".data ∨ p.1 = "running".data)) ∧
      (decide ((0x1 : Nat) &&& p.2 ≠ 0) = decide (p.1 = "up".data)) := by
    decide
  intro name bit hm
  have k1 : decide ((0x48 : Nat) &&& bit ≠ 0) =
      decide (name = "loopback".data ∨ name = "running".data) :=
    (key (name, bit) hm).1
  have k2 : decide ((0x1 : Nat) &&& bit ≠ 0) = decide (name = "up".data) :=
    (key (name, bit) hm).2
  constructor
  · rw [getattr_flag_mem ifname io1 name bit hm]
    simp only [_get_ioctl_flag, h1, w1]
    exact congrArg Except.ok k1
  · rw [getattr_flag_mem ifname io2 name bit hm]
    simp only [_get_ioctl_flag, h2, w2]
    exact congrArg Except.ok k2

theorem flag_word_decoding_witness :
    InterfaceInfo_getattr "eth0".data
        (fun _ => .ok (List.replicate 16 (0 : Byte) ++ [0x48, 0]))
        ("is_".data ++ "loopback".data) = .ok true ∧
    InterfaceInfo_getattr "eth0".data
        (fun _ => .ok (List.replicate 16 (0 : Byte) ++ [0x1, 0]))
        ("is_".data ++ "loopback".data) = .ok false :=
  flag_word_decoding "eth0".data
    (fun _ => .ok (List.replicate 16 (0 : Byte) ++ [0x48, 0]))
    (fun _ => .ok (List.replicate 16 (0 : Byte) ++ [0x1, 0]))
    (List.replicate 16 (0 : Byte) ++ [0x48, 0])
    (List.replicate 16 (0 : Byte) ++ [0x1, 0])
    rfl (by decide) rfl (by decide)
    "loopback".data IFF_LOOPBACK (by decide)

/-- C10: the engine decodes only a 16-bit flag word, so the queries for the
`lower_up` (bit `0x10000`) and `dormant` (bit `0x20000`) flags return false
for every response the flags ioctl can produce. -/
theorem lower_up_dormant_false (ifname : List Char) (ioctl : IoctlEnv)
    (resp : List Byte) (w : Nat)
    (hio : ioctl SIOCGIFFLAGS = .ok resp) (hw : flagsWord resp = some w) :
    InterfaceInfo_getattr ifname ioctl "is_lower_up".data = .ok false ∧
    InterfaceInfo_getattr ifname ioctl "is_dormant".data = .ok false := by
  have hlt : w < 65536 := flagsWord_lt resp w hw
  have hp16 : (2 : Nat) ^ 16 = 65536 := by norm_num
  have hp17 : (2 : Nat) ^ 17 = 131072 := by norm_num
  have h16 : w &&& 65536 = 0 := by
    rw [← hp16, Nat.and_two_pow,
      Nat.testBit_eq_false_of_lt (by rw [hp16]; exact hlt)]
    simp
  have h17 : w &&& 131072 = 0 := by
    rw [← hp17, Nat.and_two_pow,
      Nat.testBit_eq_false_of_lt (by rw [hp17]; omega)]
    simp
  constructor
  · have hm : ("lower_up".data, IFF_LOWER_UP) ∈ FLAGS := by decide
    rw [show ("is_lower_up".data : List Char) = "is_".data ++ "lower_up".data
      from rfl, getattr_flag_mem ifname ioctl "lower_up".data IFF_LOWER_UP hm]
    simp only [_get_ioctl_flag, hio, hw, IFF_LOWER_UP]
    simp [h16]
  · have hm : ("dormant".data, IFF_DORMANT) ∈ FLAGS := by decide
    rw [show ("is_dormant".data : List Char) = "is_".data ++ "dormant".data
      from rfl, getattr_flag_mem ifname ioctl "dormant".data IFF_DORMANT hm]
    simp only [_get_ioctl_flag, hio, hw, IFF_DORMANT]
    simp [h17]

theorem lower_up_dormant_false_witness :
    InterfaceInfo_getattr "eth0".data
        (fun _ => .ok (List.replicate 16 (0 : Byte) ++ [0xff, 0xff]))
        "is_lower_up".data = .ok false ∧
    InterfaceInfo_getattr "eth0".data
        (fun _ => .ok (List.replicate 16 (0 : Byte) ++ [0xff, 0xff]))
        "is_dormant".data = .ok false :=
  lower_up_dormant_false "eth0".data
    (fun _ => .ok (List.replicate 16 (0 : Byte) ++ [0xff, 0xff]))
    (List.replicate 16 (0 : Byte) ++ [0xff, 0xff]) 0xffff rfl (by decide)

/-- C4: on a well-formed flags response, `is_<name>` for every registered
flag name returns a boolean; for no ioctl outcome does it raise
`AttributeError`; and `is_<sfx>` for a suffix outside the registry raises
`AttributeError("no such attribute: <sfx>")`. -/
theorem attr_dispatch (ifname : List Char) (ioctl : IoctlEnv)
    (resp : List Byte) (w : Nat) (name : List Char) (bit : Nat)
    (sfx : List Char) (hm : (name, bit) ∈ FLAGS)
    (hio : ioctl SIOCGIFFLAGS = .ok resp) (hw : flagsWord resp = some w)
    (hs : ∀ kv ∈ FLAGS, sfx ≠ kv.1) :
    (∃ b : Bool,
      InterfaceInfo_getattr ifname ioctl ("is_".data ++ name) = .ok b) ∧
    (∀ io2 : IoctlEnv, ∀ m : List Char,
      InterfaceInfo_getattr ifname io2 ("is_".data ++ name) ≠
        .error (.attributeError m)) ∧
    InterfaceInfo_getattr ifname ioctl ("is_".data ++ sfx) =
      .error (.attributeError ("no such attribute: ".data ++ sfx)) := by
  refine ⟨⟨decide (w &&& bit ≠ 0), ?_⟩, ?_, ?_⟩
  · rw [getattr_flag_mem ifname ioctl name bit hm]
    simp only [_get_ioctl_flag, hio, hw]
  · intro io2 m
    rw [getattr_flag_mem ifname io2 name bit hm]
    cases hfl : _get_ioctl_flag io2 bit with
    | ok b => simp
    | error e => cases e <;> simp
  · have hp : (['i', 's', '_'] : List Char).isPrefixOf (['i', 's', '_'] ++ sfx)
        = true := isPrefixOf_append_self _ _
    have hd : ((['i', 's', '_'] : List Char) ++ sfx).drop 3 = sfx := rfl
    have hn : lookupFlag sfx FLAGS = none := lookupFlag_none_of_not_mem _ _ hs
    simp [InterfaceInfo_getattr, hp, hd, hn]

theorem attr_dispatch_witness :
    (∃ b : Bool, InterfaceInfo_getattr "eth0".data
      (fun _ => .ok (List.replicate 16 (0 : Byte) ++ [0x1, 0]))
      ("is_".data ++ "up".data) = .ok b) ∧
    (∀ io2 : IoctlEnv, ∀ m : List Char,
      InterfaceInfo_getattr "eth0".data io2 ("is_".data ++ "up".data) ≠
        .error (.attributeError m)) ∧
    InterfaceInfo_getattr "eth0".data
        (fun _ => .ok (List.replicate 16 (0 : Byte) ++ [0x1, 0]))
        ("is_".data ++ "bogus".data) =
      .error (.attributeError ("no such attribute: ".data ++ "bogus".data)) :=
  attr_dispatch "eth0".data
    (fun _ => .ok (List.replicate 16 (0 : Byte) ++ [0x1, 0]))
    (List.replicate 16 (0 : Byte) ++ [0x1, 0]) 0x1 "up".data IFF_UP
    "bogus".data (by decide) rfl (by decide) (by decide)

/-!
### C5: error contract of the gateway lookup
-/

theorem firstRowHit_eq_none (f : List Char → Option (List Char))
    (ls : List (List Char)) (h : ∀ l ∈ ls, f l = none) :
    firstRowHit f ls = none := by
  induction ls with
  | nil => rfl
  | cons l ls ih =>
    simp only [firstRowHit]
    rw [h l (List.mem_cons_self _ _)]
    exact ih fun x hx => h x (List.mem_cons_of_mem _ hx)

/-- C5: if the `route -n` invocation raises `CalledProcessError`, the lookup
returns `None` in non-strict mode and raises `NetInfoError(e)` — the
underlying failure wrapped in the domain error — in strict mode; if the
invocation succeeds but no line matches, it returns `None` in non-strict
mode and raises `NetInfoError("No default route found!")` in strict mode. -/
theorem gateway_error_contract (ifname out : List Char)
    (e : CalledProcessError)
    (h : ∀ l ∈ pySplitLines out, matchLine ifname l = none) :
    get_gateway ifname (.error e) false = .ok none ∧
    get_gateway ifname (.error e) true = .error (.netInfoError (.ofExc e)) ∧
    get_gateway ifname (.ok out) false = .ok none ∧
    get_gateway ifname (.ok out) true =
      .error (.netInfoError (.ofStr "No default route found!".data)) := by
  have hn : firstRowHit (matchLine ifname) (pySplitLines out) = none :=
    firstRowHit_eq_none _ _ h
  refine ⟨rfl, rfl, ?_, ?_⟩ <;> simp [get_gateway, hn]

theorem gateway_error_contract_witness :
    get_gateway "eth1".data (.error ⟨1⟩) false = .ok none ∧
    get_gateway "eth1".data (.error ⟨1⟩) true =
      .error (.netInfoError (.ofExc ⟨1⟩)) ∧
    get_gateway "eth1".data
      (.ok "0.0.0.0 10.0.0.1 0.0.0.0 UG 0 0 0 eth0".data) false = .ok none ∧
    get_gateway "eth1".data
      (.ok "0.0.0.0 10.0.0.1 0.0.0.0 UG 0 0 0 eth0".data) true =
      .error (.netInfoError (.ofStr "No default route found!".data)) :=
  gateway_error_contract "eth1".data
    "0.0.0.0 10.0.0.1 0.0.0.0 UG 0 0 0 eth0".data ⟨1⟩ (by decide)

/-!
### C8: the enumerator keeps exactly the lines with a single colon
-/

theorem pySplit_ne_nil (sep : Char) (s : List Char) : pySplit sep s ≠ [] := by
  cases s with
  | nil => simp [pySplit]
  | cons c rest =>
    simp only [pySplit]
    split
    · exact List.cons_ne_nil _ _
    · split <;> exact List.cons_ne_nil _ _

theorem pySplit_length (sep : Char) (s : List Char) :
    (pySplit sep s).length = s.count sep + 1 := by
  induction s with
  | nil => simp [pySplit]
  | cons c rest ih =>
    by_cases hc : c = sep
    · subst hc
      have hps : pySplit c (c :: rest) = [] :: pySplit c rest := by
        simp [pySplit]
      rw [hps, List.length_cons, ih, List.count_cons_self]
    · simp only [pySplit, if_neg hc]
      cases hp : pySplit sep rest with
      | nil => exact absurd hp (pySplit_ne_nil sep rest)
      | cons p ps =>
        rw [hp] at ih
        simp only [List.length_cons] at ih ⊢
        rw [List.count_cons_of_ne (fun hh => hc hh.symm)]
        omega

/-- The per-line behaviour of `get_ifnames`, characterised: a line yields a
name exactly when its stripped form contains exactly one colon, and the name
is the part before that colon. -/
theorem ifnameOfLine_characterisation (line : List Char) :
    ifnameOfLine line =
      if (pyStrip line).count ':' = 1 then
        some ((pyStrip line).takeWhile (fun c => c ≠ ':'))
      else none := by
  unfold ifnameOfLine
  generalize pyStrip line = s
  induction s with
  | nil => rfl
  | cons c rest ih =>
    by_cases hc : c = ':'
    · subst hc
      have hps : pySplit ':' (':' :: rest) = [] :: pySplit ':' rest := by
        simp [pySplit]
      rw [hps]
      cases hp : pySplit ':' rest with
      | nil => exact absurd hp (pySplit_ne_nil _ _)
      | cons p ps =>
        have hl := pySplit_length ':' rest
        rw [hp] at hl
        cases ps with
        | nil =>
          simp only [List.length_cons, List.length_nil] at hl
          have h0 : rest.count ':' = 0 := by omega
          rw [List.count_cons_self, h0]
          simp [List.takeWhile_cons]
        | cons q qs =>
          simp only [List.length_cons] at hl
          rw [List.count_cons_self,
            if_neg (show ¬(rest.count ':' + 1 = 1) from by omega)]
    · simp only [pySplit, if_neg hc]
      cases hp : pySplit ':' rest with
      | nil => exact absurd hp (pySplit_ne_nil _ _)
      | cons p ps =>
        rw [hp] at ih
        have lhsmap :
            (match (c :: p) :: ps with
             | [a, _j] => some a
             | _ => none) =
            (match p :: ps with
             | [a, _j] => some a
             | _ => none).map (fun x => c :: x) := by
          cases ps with
          | nil => rfl
          | cons q qs =>
            cases qs with
            | nil => rfl
            | cons r rs => rfl
        rw [lhsmap, ih, List.count_cons_of_ne (fun hh => hc hh.symm)]
        by_cases h1 : rest.count ':' = 1 <;>
          simp [h1, List.takeWhile_cons, hc]

/-- C8 (amended): `get_ifnames` returns, in table order, the part before the
colon of every line whose stripped form contains exactly one colon; every
other line — including lines of the `name: stats...` shape whose stats carry
a further colon — is silently skipped without affecting later lines. -/
theorem ifnames_corrected (dev : List Char) :
    get_ifnames dev = (fileLines dev).filterMap fun line =>
      if (pyStrip line).count ':' = 1 then
        some ((pyStrip line).takeWhile (fun c => c ≠ ':'))
      else none := by
  unfold get_ifnames
  congr 1
  funext line
  exact ifnameOfLine_characterisation line

/-- C8 (counterexample): on the line `a:b:c` — which has the `name: stats`
shape with a colon inside the stats — the claimed first-colon reading yields
the name `a`, but `get_ifnames` skips the line, because the two-variable
unpacking of the full split fails. -/
theorem ifnames_claim_counterexample :
    get_ifnames "eth0: 1 2\na:b:c\nlo: 3".data = ["eth0".data, "lo".data] ∧
    get_ifnames_claim "eth0: 1 2\na:b:c\nlo: 3".data =
      ["eth0".data, "a".data, "lo".data] := by
  decide

/-!
### C1: what the gateway regex actually matches
-/

theorem isPrefixOf_self (l : List Char) : l.isPrefixOf l = true := by
  rw [List.isPrefixOf_iff_prefix]

theorem ne_nl_of_not_break (c : Char) (h : isLineBreak c = false) :
    c ≠ '\n' := by
  intro hn
  subst hn
  simp [isLineBreak] at h

theorem wsLit_self (ifn : List Char) : wsLit ifn (' ' :: ifn) = true := by
  simp [wsLit, pyIsSpace, isPrefixOf_self]

theorem dotStarWsLit_suffix (ifn mid : List Char)
    (hmid : ∀ c ∈ mid, c ≠ '\n') :
    dotStarWsLit ifn (mid ++ ' ' :: ifn) = true := by
  induction mid with
  | nil => simp [dotStarWsLit, wsLit_self]
  | cons c m ih =>
    have hc : c ≠ '\n' := hmid c (List.mem_cons_self _ _)
    have ih2 := ih fun x hx => hmid x (List.mem_cons_of_mem _ hx)
    simp [dotStarWsLit, ih2, hc]

theorem wsThen_suffix (ifn mid : List Char) (hmid : ∀ c ∈ mid, c ≠ '\n') :
    wsThenDotStarWsLit ifn (' ' :: (mid ++ ' ' :: ifn)) = true := by
  simp [wsThenDotStarWsLit, pyIsSpace, dotStarWsLit_suffix ifn mid hmid]

theorem wsThen_false_of_head (ifn : List Char) (c : Char) (s : List Char)
    (hc : pyIsSpace c = false) :
    wsThenDotStarWsLit ifn (c :: s) = false := by
  simp [wsThenDotStarWsLit, hc]

theorem lazyG1_append (ifn gw tail : List Char)
    (hgw : ∀ c ∈ gw, pyIsSpace c = false ∧ c ≠ '\n')
    (ht : wsThenDotStarWsLit ifn tail = true) :
    lazyG1 ifn (gw ++ tail) = some gw := by
  induction gw with
  | nil =>
    cases tail with
    | nil => simp [wsThenDotStarWsLit] at ht
    | cons c r => simp [lazyG1, ht]
  | cons c gw ih =>
    have hc := hgw c (List.mem_cons_self _ _)
    have ih2 := ih fun x hx => hgw x (List.mem_cons_of_mem _ hx)
    have hfalse : wsThenDotStarWsLit ifn (c :: (gw ++ tail)) = false :=
      wsThen_false_of_head ifn c _ hc.1
    simp [lazyG1, hfalse, hc.2, ih2]

theorem greedyWs_append (ifn : List Char) (g0 : Char) (gw tail : List Char)
    (hgw : ∀ c ∈ g0 :: gw, pyIsSpace c = false ∧ c ≠ '\n')
    (ht : wsThenDotStarWsLit ifn tail = true) :
    greedyWsThenG1 ifn ((g0 :: gw) ++ tail) = some (g0 :: gw) := by
  have hc := (hgw g0 (List.mem_cons_self _ _)).1
  have hlz : lazyG1 ifn ((g0 :: gw) ++ tail) = some (g0 :: gw) :=
    lazyG1_append ifn (g0 :: gw) tail hgw ht
  simp only [List.cons_append] at hlz ⊢
  simp [greedyWsThenG1, hc, hlz]

set_option maxHeartbeats 2000000 in
theorem splitLinesAux_no_break (l : List Char)
    (h : ∀ c ∈ l, isLineBreak c = false) :
    ∀ cur, splitLinesAux cur l = [cur.reverse ++ l] := by
  induction l with
  | nil => intro cur; simp [splitLinesAux]
  | cons c rest ih =>
    intro cur
    have hc := h c (List.mem_cons_self _ _)
    have hcr : c ≠ '\r' := by
      intro hr
      subst hr
      simp [isLineBreak] at hc
    rw [splitLinesAux.eq_def]
    split
    · simp_all
    · simp_all
    · rename_i hno heq
      injection heq with h1 h2
      subst h1
      subst h2
      rw [if_neg (by simp [hc])]
      rw [ih (fun x hx => h x (List.mem_cons_of_mem _ hx)) (c :: cur)]
      simp

theorem pySplitLines_single (l : List Char) (hne : l ≠ [])
    (h : ∀ c ∈ l, isLineBreak c = false) : pySplitLines l = [l] := by
  cases l with
  | nil => exact absurd rfl hne
  | cons c rest =>
    show splitLinesAux [] (c :: rest) = [c :: rest]
    rw [splitLinesAux_no_break (c :: rest) h []]
    simp

/-- C1 (amended): on a route line of the shape
`0.0.0.0<SP><gw><SP><mid><SP><ifname>` — in particular on every well-formed
default-route row, where `gw` is the second column — `get_gateway` returns
`gw`: the group the lazy `(.*?)` captures is exactly the second column
whenever that column has no whitespace.  The counterexample theorem shows
the two ways the regex is more permissive than the claim: the dots of
`0.0.0.0` match any character, and the trailing `{ifname}` is unanchored, so
it also fires on a row whose device column merely begins with the interface
name. -/
theorem gateway_match_corrected (ifn gw mid : List Char) (errors : Bool)
    (hgw : gw ≠ [])
    (hgwc : ∀ c ∈ gw, pyIsSpace c = false ∧ isLineBreak c = false)
    (hmid : ∀ c ∈ mid, isLineBreak c = false)
    (hifn : ∀ c ∈ ifn, isLineBreak c = false) :
    get_gateway ifn
      (.ok ("0.0.0.0 ".data ++ (gw ++ (' ' :: (mid ++ (' ' :: ifn))))))
      errors = .ok (some gw) := by
  obtain ⟨g0, gw', rfl⟩ := List.exists_cons_of_ne_nil hgw
  have hmid2 : ∀ c ∈ mid, c ≠ '\n' :=
    fun c hc => ne_nl_of_not_break c (hmid c hc)
  have hgwc2 : ∀ c ∈ g0 :: gw', pyIsSpace c = false ∧ c ≠ '\n' :=
    fun c hc => ⟨(hgwc c hc).1, ne_nl_of_not_break c (hgwc c hc).2⟩
  have ht : wsThenDotStarWsLit ifn (' ' :: (mid ++ ' ' :: ifn)) = true :=
    wsThen_suffix ifn mid hmid2
  have hml : matchLine ifn
      ("0.0.0.0 ".data ++ ((g0 :: gw') ++ (' ' :: (mid ++ (' ' :: ifn))))) =
      some (g0 :: gw') := by
    show (match matchDest ('0' :: '.' :: '0' :: '.' :: '0' :: '.' :: '0' ::
        ' ' :: ((g0 :: gw') ++ (' ' :: (mid ++ (' ' :: ifn))))) with
      | some rest => afterDest ifn rest
      | none => none) = some (g0 :: gw')
    rw [show matchDest ('0' :: '.' :: '0' :: '.' :: '0' :: '.' :: '0' ::
        ' ' :: ((g0 :: gw') ++ (' ' :: (mid ++ (' ' :: ifn))))) =
        some (' ' :: ((g0 :: gw') ++ (' ' :: (mid ++ (' ' :: ifn)))))
      from rfl]
    show afterDest ifn
      (' ' :: ((g0 :: gw') ++ (' ' :: (mid ++ (' ' :: ifn))))) =
      some (g0 :: gw')
    have hsp : pyIsSpace ' ' = true := by decide
    simp only [afterDest, hsp, if_true]
    exact greedyWs_append ifn g0 gw' (' ' :: (mid ++ (' ' :: ifn))) hgwc2 ht
  have hnb : ∀ c ∈ ("0.0.0.0 ".data ++
      ((g0 :: gw') ++ (' ' :: (mid ++ (' ' :: ifn))))), isLineBreak c =
      false := by
    simp only [List.forall_mem_append, List.forall_mem_cons]
    refine ⟨by decide, ⟨(hgwc g0 (List.mem_cons_self _ _)).2,
      fun c hc => (hgwc c (List.mem_cons_of_mem _ hc)).2⟩,
      by decide, hmid, by decide, hifn⟩
  have hsl : pySplitLines ("0.0.0.0 ".data ++
      ((g0 :: gw') ++ (' ' :: (mid ++ (' ' :: ifn))))) =
      [("0.0.0.0 ".data ++ ((g0 :: gw') ++ (' ' :: (mid ++ (' ' :: ifn)))))] :=
    pySplitLines_single _ (by simp) hnb
  simp only [get_gateway, hsl, firstRowHit, hml]

theorem gateway_match_corrected_witness :
    get_gateway "eth0".data
      (.ok ("0.0.0.0 ".data ++ ("10.0.0.1".data ++
        (' ' :: ("0.0.0.0 UG 0 0 0".data ++ (' ' :: "eth0".data))))))
      false = .ok (some "10.0.0.1".data) :=
  gateway_match_corrected "eth0".data "10.0.0.1".data
    "0.0.0.0 UG 0 0 0".data false (by decide) (by decide) (by decide)
    (by decide)

/-- C1 (counterexample): on the single row
`0.0.0.0 10.9.9.9 0.0.0.0 UG 0 0 0 eth01` the trailing device column is
`eth01`, not `eth0`, so under the claim the lookup for `eth0` matches no row
and returns nothing; the code nevertheless returns `10.9.9.9` from that row,
because the regex only requires the interface name to occur after
whitespace. -/
theorem gateway_claim_counterexample :
    get_gateway "eth0".data
      (.ok "0.0.0.0 10.9.9.9 0.0.0.0 UG 0 0 0 eth01".data) false =
      .ok (some "10.9.9.9".data) ∧
    gateway_claim "eth0".data
      "0.0.0.0 10.9.9.9 0.0.0.0 UG 0 0 0 eth01".data = none := by
  decide

end Netinfo
